import Mathlib

/-!
Shallow embedding of the dynamixel-tool protocol engine
(dynamixel-utils/src/protocol/{v1,v2}.rs, dynamixel-utils/src/protocol/slave/v1.rs,
dynamixel-lib/src/protocol/master/v2.rs, dynamixel-lib/src/protocol/slave/v1.rs).

Bytes are Nat with wrapping arithmetic made explicit (`% 256`, `% 65536`)
exactly where the Rust code wraps (u8 / u16 casts and overflowing adds).
Rust slices become a `Buf` structure (contents as a total function plus an
explicit capacity); every slice write is bounds-checked the way Rust
bounds-checks it, an out-of-range write being a panic.  Fallible Rust code
returns `RRes`, whose `panic` constructor records a Rust panic (failed
`assert!` or out-of-bounds index).
-/

/-- Bitwise NOT of a byte (`!x` on `u8`): for `x < 256` this is `255 - x`. -/
def bnot (x : Nat) : Nat := 255 - x % 256

/-- The Protocol 1 checksum accumulator:
`iter().fold(0u8, |x, y| x.overflowing_add(y).0)` — an 8-bit wrapping sum. -/
def sum8 (l : List Nat) : Nat := l.foldl (fun a b => (a + b) % 256) 0

/-- `u16::to_le_bytes`. -/
def u16le (x : Nat) : List Nat := [x % 256, x / 256 % 256]

/-- One shift step of CRC-16/UMTS (poly 0x8005, MSB first, no reflection). -/
def crcShift (c : Nat) : Nat :=
  if c &&& 32768 ≠ 0 then ((c <<< 1) ^^^ 32773) % 65536 else (c <<< 1) % 65536

/-- Fold one byte into the CRC-16/UMTS state. -/
def crcByteStep (c b : Nat) : Nat := crcShift^[8] (c ^^^ ((b % 256) <<< 8))

/-- `Crc::<u16>::new(&CRC_16_UMTS).checksum(bytes)`: init 0, no reflection,
no xor-out. -/
def crc16 (l : List Nat) : Nat := l.foldl crcByteStep 0

/-- The error taxonomy of the protocol layer (`ProtocolError` in
dynamixel-utils/src/protocol/mod.rs, extended by the variants the
dynamixel-lib engines use: `InvalidArg` and `TimedOut` appear in
dynamixel-lib code whose `protocol/mod.rs` is not in the tree; their
existence is taken from the spec's error taxonomy).  `ioError` stands for
an underlying I/O failure surfaced through `anyhow`. -/
inductive ProtocolError where
  | badPacket
  | invalidAddress
  | invalidCount
  | statusError (b : Nat)
  | invalidArg
  | timedOut
  | ioError
deriving DecidableEq, Repr

/-- Which Rust panic a model function hit. -/
inductive PanicKind where
  | assertFailed
  | indexOutOfBounds
deriving DecidableEq, Repr

/-- Result of a Rust function that can return, error, or panic. -/
inductive RRes (α : Type) where
  | ok (a : α)
  | err (e : ProtocolError)
  | panic (k : PanicKind)
deriving DecidableEq

/-- The error carried by an `RRes`, if any. -/
def resErr {α : Type} : RRes α → Option ProtocolError
  | .err e => some e
  | _ => none

/-- True iff an `RRes` is a panic of the given kind. -/
def isPanic {α : Type} : RRes α → PanicKind → Bool
  | .panic k, k' => k = k'
  | _, _ => false

/-- A Rust byte slice: contents as a total function, with the slice length
(`buffer.len()`) as explicit capacity. -/
structure Buf where
  data : Nat → Nat
  cap : Nat

/-- A zero-initialized buffer (`[0u8; n]`). -/
def mkBuf (n : Nat) : Buf := ⟨fun _ => 0, n⟩

/-- A buffer holding exactly the bytes of a list. -/
def bufOfList (l : List Nat) : Buf := ⟨fun i => l.getD i 0, l.length⟩

/-- `buffer[s..s+src.len()].copy_from_slice(src)`: bounds-checked region
write; `none` models the Rust panic when the region exceeds the slice. -/
def writeSlice (b : Buf) (s : Nat) (src : List Nat) : Option Buf :=
  if s + src.length ≤ b.cap then
    some ⟨fun j => if s ≤ j ∧ j < s + src.length then src.getD (j - s) 0 else b.data j, b.cap⟩
  else none

/-- Read the `n` bytes starting at `s` (callers only use this where the
Rust code's own guards make the access in-bounds). -/
def readRegion (b : Buf) (s : Nat) : Nat → List Nat
  | 0 => []
  | n + 1 => b.data s :: readRegion b (s + 1) n

/-- A bounds-checked region read (`&buffer[s..s+n]` where the Rust guards
do not already imply the access is in range). -/
def readSliceB (b : Buf) (s n : Nat) : Option (List Nat) :=
  if s + n ≤ b.cap then some (readRegion b s n) else none

/-- The Protocol 1 wire frame `encode_instruction_v1` writes:
`FF FF | id | length | instruction | params… | checksum` with
`length = (2 + |params|) as u8` and checksum the bitwise NOT of the
wrapping sum of bytes 2 through `4 + |params|` (id through last param). -/
def v1Frame (id instr : Nat) (params : List Nat) : List Nat :=
  [255, 255] ++ (id :: (2 + params.length) % 256 :: instr :: params)
    ++ [bnot (sum8 (id :: (2 + params.length) % 256 :: instr :: params))]

/-- `encode_instruction_v1` (dynamixel-utils/src/protocol/v1.rs:75).
The Rust function asserts `usize::from(length) <= buffer.len()` with
`length = (2 + params.len()) as u8`, then writes bytes 0 through
`5 + |params|` one region at a time; some individual write is out of range
exactly when `6 + |params| > buffer.len()`, so the write sequence is
modelled as one checked region write of the whole frame.  Returns
`6 + |params|`. -/
def encode_instruction_v1 (b : Buf) (id instr : Nat) (params : List Nat) : RRes (Buf × Nat) :=
  if (2 + params.length) % 256 ≤ b.cap then
    match writeSlice b 0 (v1Frame id instr params) with
    | some b' => .ok (b', 6 + params.length)
    | none => .panic .indexOutOfBounds
  else .panic .assertFailed

/-- `decode_status_v1` (dynamixel-utils/src/protocol/v1.rs:94).  Reads a
status frame out of `b`, copying the params into `ps`; mirrors the Rust
guard structure exactly, including the `|| buffer[4] != 0x0` clause inside
the checksum check. -/
def decode_status_v1 (b : Buf) (ps : Buf) : RRes (Buf × Nat) :=
  if b.cap < 6 ∨ b.data 3 < 2 then .err .badPacket
  else
    if b.cap < 6 + (b.data 3 - 2) ∨ readRegion b 0 2 ≠ [255, 255] then .err .badPacket
    else
      if sum8 (readRegion b 2 (3 + (b.data 3 - 2))) ≠ bnot (b.data (5 + (b.data 3 - 2)))
          ∨ b.data 4 ≠ 0 then .err .badPacket
      else
        if b.data 4 ≠ 0 then .err (.statusError (b.data 4))
        else
          match writeSlice ps 0 (readRegion b 5 (b.data 3 - 2)) with
          | some ps' => .ok (ps', 6 + (b.data 3 - 2))
          | none => .panic .indexOutOfBounds

/-- The Protocol 2 wire frame `encode_instruction_v2` writes:
`FF FF FD 00 | id | len_lo len_hi | instruction | params… | crc_lo crc_hi`
with `len = (3 + |params|) as u16` and the CRC-16/UMTS of bytes 0 through
`7 + |params|`. -/
def v2Frame (id instr : Nat) (params : List Nat) : List Nat :=
  [255, 255, 253, 0] ++ [id] ++ u16le ((3 + params.length) % 65536) ++ [instr] ++ params
    ++ u16le (crc16 ([255, 255, 253, 0] ++ [id] ++ u16le ((3 + params.length) % 65536)
        ++ [instr] ++ params))

/-- `encode_instruction_v2` (dynamixel-utils/src/protocol/v2.rs:63 and
dynamixel-lib/src/protocol/master/v2.rs:97, identical).  Asserts
`usize::from(length) <= buffer.len()` with `length = (3 + params.len()) as
u16`; the individual writes cover bytes 0 through `9 + |params|`, some of
them out of range exactly when `10 + |params| > buffer.len()`.  Returns
`10 + |params|`. -/
def encode_instruction_v2 (b : Buf) (id instr : Nat) (params : List Nat) : RRes (Buf × Nat) :=
  if (3 + params.length) % 65536 ≤ b.cap then
    match writeSlice b 0 (v2Frame id instr params) with
    | some b' => .ok (b', 10 + params.length)
    | none => .panic .indexOutOfBounds
  else .panic .assertFailed

/-- `decode_status_v2` (dynamixel-utils/src/protocol/v2.rs:84 and
dynamixel-lib/src/protocol/master/v2.rs:118, identical).  The read of
`buffer[9+plen..11+plen]` is the one access the preceding guards do not
put in bounds (`buffer.len() = 10 + plen` passes them), hence the checked
region read. -/
def decode_status_v2 (b : Buf) (ps : Buf) : RRes (Buf × Nat) :=
  if b.cap < 10 then .err .badPacket
  else
    if b.data 5 + 256 * b.data 6 < 4 then .err .badPacket
    else
      if b.cap < 10 + (b.data 5 + 256 * b.data 6 - 4)
          ∨ readRegion b 0 4 ≠ [255, 255, 253, 0] then .err .badPacket
      else
        match readSliceB b (9 + (b.data 5 + 256 * b.data 6 - 4)) 2 with
        | none => .panic .indexOutOfBounds
        | some cb =>
          if cb ≠ u16le (crc16 (readRegion b 0 (9 + (b.data 5 + 256 * b.data 6 - 4)))) then
            .err .badPacket
          else
            if b.data 8 ≠ 0 then .err (.statusError (b.data 8))
            else
              match writeSlice ps 0 (readRegion b 9 (b.data 5 + 256 * b.data 6 - 4)) with
              | some ps' => .ok (ps', 10 + (b.data 5 + 256 * b.data 6 - 4))
              | none => .panic .indexOutOfBounds

/-- The master-side transport: a log of frames written with `write_all`
and the pending incoming byte stream served to `read_exact`. -/
structure Port where
  tx : List (List Nat)
  rx : List Nat
deriving DecidableEq, Repr

/-- `port.write_all(frame)`: append the frame to the write log. -/
def portWrite (p : Port) (frame : List Nat) : Port := ⟨p.tx ++ [frame], p.rx⟩

/-- `port.read_exact(n bytes)`: consume exactly `n` bytes of the incoming
stream, or fail (timeout / short stream) consuming nothing. -/
def portReadExact (p : Port) (n : Nat) : Option (List Nat × Port) :=
  if n ≤ p.rx.length then some (p.rx.take n, ⟨p.tx, p.rx.drop n⟩) else none

/-- The retry loop shared by every master operation except `scan`
(e.g. dynamixel-lib/src/protocol/master/v2.rs:38):
`for _ in 0..=retries { match body() { Ok(d) => return Ok(d), Err(e) => error = Some(e) } }
Err(error.unwrap())` — run the body up to `retries + 1` times, return the
first success immediately, keep only the last error; a panic in the body
propagates. -/
def retrySt {α : Type} (body : Port → RRes α × Port) : Nat → Port → RRes α × Port
  | 0, p => body p
  | n + 1, p =>
    match body p with
    | (.err _, p') => retrySt body n p'
    | r => r

/-- `read_v1` (dynamixel-utils/src/protocol/v1.rs:139): one attempt of the
Protocol 1 master read.  Encodes into a 255-byte buffer, writes the frame,
reads a `6 + count` byte reply into the same buffer (the slice
`&mut buffer[0..len_read]` panics when `6 + count > 255`), decodes it into
a fresh 255-byte params buffer and returns the first `count` params. -/
def read_v1 (p : Port) (id addr count : Nat) : RRes (List Nat) × Port :=
  match encode_instruction_v1 (mkBuf 255) id 2 [addr, count] with
  | .err e => (.err e, p)
  | .panic k => (.panic k, p)
  | .ok (b, n) =>
    let p1 := portWrite p (readRegion b 0 n)
    if 6 + count ≤ 255 then
      match portReadExact p1 (6 + count) with
      | none => (.err .timedOut, p1)
      | some (bytes, p2) =>
        match writeSlice b 0 bytes with
        | none => (.panic .indexOutOfBounds, p2)
        | some b2 =>
          match decode_status_v1 b2 (mkBuf 255) with
          | .ok (ps, _) => (.ok (readRegion ps 0 count), p2)
          | .err e => (.err e, p2)
          | .panic k => (.panic k, p2)
    else (.panic .indexOutOfBounds, p1)

/-- `ProtocolV1::read` (dynamixel-utils/src/protocol/v1.rs:29): reject
`address > 0xFE` with `InvalidAddress` and `count > 0xFF` with
`InvalidCount` before touching the port, then run `read_v1` under the
retry loop. -/
def protocolV1_read (retries : Nat) (p : Port) (id addr count : Nat) : RRes (List Nat) × Port :=
  if 254 < addr then (.err .invalidAddress, p)
  else if 255 < count then (.err .invalidCount, p)
  else retrySt (fun q => read_v1 q id addr count) retries p

/-- `read1` (dynamixel-lib/src/protocol/master/v2.rs:166): one attempt of
the Protocol 2 master read; 65535-byte buffers, reply of `11 + count`
bytes. -/
def read1 (p : Port) (id addr count : Nat) : RRes (List Nat) × Port :=
  match encode_instruction_v2 (mkBuf 65535) id 2 (u16le addr ++ u16le count) with
  | .err e => (.err e, p)
  | .panic k => (.panic k, p)
  | .ok (b, n) =>
    let p1 := portWrite p (readRegion b 0 n)
    if 11 + count ≤ 65535 then
      match portReadExact p1 (11 + count) with
      | none => (.err .timedOut, p1)
      | some (bytes, p2) =>
        match writeSlice b 0 bytes with
        | none => (.panic .indexOutOfBounds, p2)
        | some b2 =>
          match decode_status_v2 b2 (mkBuf 65535) with
          | .ok (ps, _) => (.ok (readRegion ps 0 count), p2)
          | .err e => (.err e, p2)
          | .panic k => (.panic k, p2)
    else (.panic .indexOutOfBounds, p1)

/-- `write1` (dynamixel-lib/src/protocol/master/v2.rs:188): one attempt of
the Protocol 2 master write; params are `addr.to_le_bytes()` followed by
the data (the copy into the 65535-byte params buffer panics when
`2 + |data| > 65535`), reply is 11 bytes. -/
def write1 (p : Port) (id addr : Nat) (data : List Nat) : RRes Unit × Port :=
  if 2 + data.length ≤ 65535 then
    match encode_instruction_v2 (mkBuf 65535) id 3 (u16le addr ++ data) with
    | .err e => (.err e, p)
    | .panic k => (.panic k, p)
    | .ok (b, n) =>
      let p1 := portWrite p (readRegion b 0 n)
      match portReadExact p1 11 with
      | none => (.err .timedOut, p1)
      | some (bytes, p2) =>
        match writeSlice b 0 bytes with
        | none => (.panic .indexOutOfBounds, p2)
        | some b2 =>
          match decode_status_v2 b2 (mkBuf 65535) with
          | .ok _ => (.ok (), p2)
          | .err e => (.err e, p2)
          | .panic k => (.panic k, p2)
  else (.panic .indexOutOfBounds, p)

/-- The per-ID section of a sync-write request: `id_i` followed by its
payload, in `ids` order (the `for (i, id) in ids.iter().enumerate()` loop
of `sync_write1`). -/
def interleavePairs : List (Nat × List Nat) → List Nat
  | [] => []
  | (i, d) :: rest => i :: (d ++ interleavePairs rest)

/-- `sync_write1` (dynamixel-lib/src/protocol/master/v2.rs:209): writes
`addr.to_le_bytes()`, then `(data[0].len() as u16).to_le_bytes()` — a
panic when `data` is empty — into the request cursor, only then checks
`ids.len() != data.len()` (`InvalidArg`), appends `id_i` and `data[i]` for
each id (a cursor overflow past 65535 bytes is an I/O error), encodes a
single broadcast frame (id 0xFE, opcode 0x83) and writes it; no reply is
read. -/
def syncWrite1 (p : Port) (ids : List Nat) (addr : Nat) (data : List (List Nat)) :
    RRes Unit × Port :=
  match data with
  | [] => (.panic .indexOutOfBounds, p)
  | d0 :: _ =>
    if ids.length ≠ data.length then (.err .invalidArg, p)
    else
      if (u16le addr ++ u16le (d0.length % 65536) ++ interleavePairs (ids.zip data)).length
          ≤ 65535 then
        match encode_instruction_v2 (mkBuf 65535) 254 131
            (u16le addr ++ u16le (d0.length % 65536) ++ interleavePairs (ids.zip data)) with
        | .ok (b, n) => (.ok (), portWrite p (readRegion b 0 n))
        | .err e => (.err e, p)
        | .panic k => (.panic k, p)
      else (.err .ioError, p)

/-- The reply loop of `sync_read1`: for each remaining id, read
`11 + count` bytes into the (reused) frame buffer, decode into the
(reused) params buffer, and prepend the first `count` params; any read or
decode failure aborts the whole loop. -/
def syncReadLoop (buffer params : Buf) (p : Port) (count : Nat) :
    List Nat → RRes (List (List Nat)) × Port
  | [] => (.ok [], p)
  | _ :: rest =>
    if 11 + count ≤ buffer.cap then
      match portReadExact p (11 + count) with
      | none => (.err .timedOut, p)
      | some (bytes, p2) =>
        match writeSlice buffer 0 bytes with
        | none => (.panic .indexOutOfBounds, p2)
        | some buf2 =>
          match decode_status_v2 buf2 params with
          | .err e => (.err e, p2)
          | .panic k => (.panic k, p2)
          | .ok (params2, _) =>
            match syncReadLoop buf2 params2 p2 count rest with
            | (.ok results, p3) => (.ok (readRegion params2 0 count :: results), p3)
            | other => other
    else (.panic .indexOutOfBounds, p)

/-- `sync_read1` (dynamixel-lib/src/protocol/master/v2.rs:238): build the
request params `addr_lo addr_hi count_lo count_hi id…`, send one
broadcast frame (id 0xFE, opcode 0x82), then read one `11 + count` byte
status per id, in order. -/
def syncRead1 (p : Port) (ids : List Nat) (addr count : Nat) :
    RRes (List (List Nat)) × Port :=
  if (u16le addr ++ u16le count ++ ids).length ≤ 65535 then
    match encode_instruction_v2 (mkBuf 65535) 254 130 (u16le addr ++ u16le count ++ ids) with
    | .ok (b, n) => syncReadLoop b (mkBuf 65535) (portWrite p (readRegion b 0 n)) count ids
    | .err e => (.err e, p)
    | .panic k => (.panic k, p)
  else (.err .ioError, p)

/-- `ProtocolV2::read` (dynamixel-lib/src/protocol/master/v2.rs:38). -/
def protocolV2_read (retries : Nat) (p : Port) (id addr count : Nat) : RRes (List Nat) × Port :=
  retrySt (fun q => read1 q id addr count) retries p

/-- `ProtocolV2::write` (dynamixel-lib/src/protocol/master/v2.rs:49). -/
def protocolV2_write (retries : Nat) (p : Port) (id addr : Nat) (data : List Nat) :
    RRes Unit × Port :=
  retrySt (fun q => write1 q id addr data) retries p

/-- `ProtocolV2::sync_write` (dynamixel-lib/src/protocol/master/v2.rs:65). -/
def protocolV2_sync_write (retries : Nat) (p : Port) (ids : List Nat) (addr : Nat)
    (data : List (List Nat)) : RRes Unit × Port :=
  retrySt (fun q => syncWrite1 q ids addr data) retries p

/-- `ProtocolV2::sync_read` (dynamixel-lib/src/protocol/master/v2.rs:77). -/
def protocolV2_sync_read (retries : Nat) (p : Port) (ids : List Nat) (addr count : Nat) :
    RRes (List (List Nat)) × Port :=
  retrySt (fun q => syncRead1 q ids addr count) retries p

/-- `Opcode::from_u8` succeeds on these bytes.  Fifteen values are the
enum of dynamixel-lib/src/protocol/slave/mod.rs (Ping=01 … FastBulkRead=9A).
Modelled from the spec: the byte 0 for `Opcode::StatusV1` — the slave
sources use that variant but the enum revision declaring it is not in the
tree; the spec fixes the V1 status marker byte at 0. -/
def opcodeKnown (b : Nat) : Bool :=
  ([0, 1, 2, 3, 4, 5, 6, 8, 16, 32, 130, 131, 138, 146, 147, 154] : List Nat).contains b

/-- `RawInstruction` (dynamixel-lib/src/protocol/slave/mod.rs), with the
opcode kept as its byte value (the enum round-trips through `from_u8`). -/
structure RawIns where
  id : Nat
  opcode : Nat
  data : List Nat
deriving DecidableEq, Repr

/-- One outcome of the 100 ms-bounded port read inside the utils slave's
`ensure_buffer`: the timeout elapsed, the read returned a hard I/O error,
or it delivered exactly the requested bytes (taken from the `rx` stream). -/
inductive Ev1 where
  | timeout
  | ioErr
  | chunk
deriving DecidableEq, Repr

/-- Result of the utils slave's `ensure_buffer`: the new buffer state, a
surfaced I/O error, or blocked awaiting input the environment never
provides. -/
inductive ERes1 where
  | ok (deq rx : List Nat) (env : List Ev1)
  | err
  | blocked
deriving DecidableEq, Repr

/-- The retry loop inside `ensure_buffer`
(dynamixel-utils/src/protocol/slave/v1.rs:32): on timeout clear the deque
and retry, on a read error surface it, on success extend the deque by the
`n - deq.len()` bytes read and stop. -/
def ensureLoop1 (n : Nat) : List Nat → List Nat → List Ev1 → ERes1
  | _, _, [] => .blocked
  | _, rx, .timeout :: env => ensureLoop1 n [] rx env
  | _, _, .ioErr :: _ => .err
  | deq, rx, .chunk :: env =>
    if n - deq.length ≤ rx.length then
      .ok (deq ++ rx.take (n - deq.length)) (rx.drop (n - deq.length)) env
    else .blocked

/-- `ensure_buffer` (dynamixel-utils/src/protocol/slave/v1.rs:27): return
at once when `n` bytes are already buffered, otherwise run the read loop. -/
def ensure1 (deq rx : List Nat) (env : List Ev1) (n : Nat) : ERes1 :=
  if n ≤ deq.length then .ok deq rx env else ensureLoop1 n deq rx env

/-- Result of the utils slave's `recv_instruction`: a delivered
instruction together with the remaining buffer and environment, a
surfaced error, or blocked (still scanning / out of fuel). -/
inductive RecvU where
  | ok (ins : RawIns) (deq rx : List Nat) (env : List Ev1)
  | err
  | blocked
deriving DecidableEq, Repr

/-- `ProtocolV1::recv_instruction` (dynamixel-utils/src/protocol/slave/v1.rs:54).
Scan loop: ensure 4 bytes (`?` surfaces ensure errors); pop one byte on a
bad header byte, id 0xFF, zero length, unknown opcode or checksum
mismatch; on success deliver `RawInstruction` and drain `len + 3` bytes.
`fuel` bounds the number of loop iterations. -/
def recvU : Nat → List Nat → List Nat → List Ev1 → RecvU
  | 0, _, _, _ => .blocked
  | fuel + 1, deq, rx, env =>
    match ensure1 deq rx env 4 with
    | .err => .err
    | .blocked => .blocked
    | .ok d r e =>
      if d.getD 0 0 ≠ 255 then recvU fuel (d.drop 1) r e
      else if d.getD 1 0 ≠ 255 then recvU fuel (d.drop 1) r e
      else if d.getD 2 0 = 255 then recvU fuel (d.drop 1) r e
      else if d.getD 3 0 = 0 then recvU fuel (d.drop 1) r e
      else
        match ensure1 d r e (4 + d.getD 3 0) with
        | .err => .err
        | .blocked => .blocked
        | .ok d2 r2 e2 =>
          if ¬ opcodeKnown (d2.getD 4 0) then recvU fuel (d2.drop 1) r2 e2
          else if bnot (sum8 ((d2.drop 2).take (d.getD 3 0 + 2))) ≠ 0 then
            recvU fuel (d2.drop 1) r2 e2
          else
            .ok ⟨d.getD 2 0, d2.getD 4 0, (d2.drop 5).take (d.getD 3 0 - 2)⟩
              (d2.drop (d.getD 3 0 + 3)) r2 e2

/-- One outcome of the plain `port.read` inside the lib slave's
`ensure_buffer`: a failure (elapsed timeout or read error — the code's
`_` match arm treats them alike), or a read that returned the given
bytes (kept only when exactly `n - deq.len()` arrived). -/
inductive Ev2 where
  | fail
  | recv (bs : List Nat)
deriving DecidableEq, Repr

/-- Result of the lib slave's `ensure_buffer`: success, a `TimedOut`
error (the only error it ever produces), or blocked. -/
inductive LERes where
  | ok (deq : List Nat) (env : List Ev2)
  | err (env : List Ev2)
  | blocked
deriving DecidableEq, Repr

/-- `ensure_buffer` (dynamixel-lib/src/protocol/slave/v1.rs:27): one
bounded read; any failure — and any read of the wrong size, whose bytes
are discarded — becomes `Err(TimedOut)`. -/
def ensureL (deq : List Nat) (env : List Ev2) (n : Nat) : LERes :=
  if n ≤ deq.length then .ok deq env
  else
    match env with
    | [] => .blocked
    | .fail :: e => .err e
    | .recv bs :: e => if bs.length = n - deq.length then .ok (deq ++ bs) e else .err e

/-- The spin loop `while self.ensure_buffer(4).await.is_err() {}` of the
lib slave (dynamixel-lib/src/protocol/slave/v1.rs:56), fused with
`ensureL`: keep retrying until a buffer of `n` bytes is available. -/
def waitBuf : List Ev2 → List Nat → Nat → Option (List Nat × List Ev2)
  | env, deq, n =>
    if n ≤ deq.length then some (deq, env)
    else
      match env with
      | [] => none
      | .fail :: e => waitBuf e deq n
      | .recv bs :: e =>
        if bs.length = n - deq.length then some (deq ++ bs, e) else waitBuf e deq n

/-- Result of the lib slave's `recv_instruction`; the `err` constructor
exists because the Rust return type is `Result<RawInstruction>`. -/
inductive RecvL where
  | ok (ins : RawIns) (deq : List Nat) (env : List Ev2)
  | err (e : ProtocolError)
  | blocked
deriving DecidableEq, Repr

/-- True iff a `RecvL` is an error. -/
def recvLIsErr : RecvL → Bool
  | .err _ => true
  | _ => false

/-- `ProtocolV1::recv_instruction` (dynamixel-lib/src/protocol/slave/v1.rs:54).
Like the utils copy, except: the first ensure is retried forever
(swallowing its errors), a failed full-frame ensure clears the deque and
rescans, status packets (opcode byte 0, `Opcode::StatusV1`) are discarded
with a full clear, and on delivery the whole deque is cleared. -/
def recvL : Nat → List Nat → List Ev2 → RecvL
  | 0, _, _ => .blocked
  | fuel + 1, deq, env =>
    match waitBuf env deq 4 with
    | none => .blocked
    | some (d, e) =>
      if d.getD 0 0 ≠ 255 then recvL fuel (d.drop 1) e
      else if d.getD 1 0 ≠ 255 then recvL fuel (d.drop 1) e
      else if d.getD 2 0 = 255 then recvL fuel (d.drop 1) e
      else if d.getD 3 0 = 0 then recvL fuel (d.drop 1) e
      else
        match ensureL d e (4 + d.getD 3 0) with
        | .blocked => .blocked
        | .err e2 => recvL fuel [] e2
        | .ok d2 e2 =>
          if ¬ opcodeKnown (d2.getD 4 0) then recvL fuel (d2.drop 1) e2
          else if bnot (sum8 ((d2.drop 2).take (d.getD 3 0 + 2))) ≠ 0 then
            recvL fuel (d2.drop 1) e2
          else if d2.getD 4 0 = 0 then recvL fuel [] e2
          else .ok ⟨d.getD 2 0, d2.getD 4 0, (d2.drop 5).take (d.getD 3 0 - 2)⟩ [] e2

/-- Concatenation of a list of byte blocks (the byte stream formed by
back-to-back status packets). -/
def flatAll : List (List Nat) → List Nat
  | [] => []
  | c :: cs => c ++ flatAll cs

/-- A well-formed Protocol 2 status packet carrying exactly `count`
params: correct total length, header, declared length field, a zero error
byte, and a trailing CRC-16/UMTS that matches the preceding bytes. -/
def goodStatus (c : List Nat) (count : Nat) : Prop :=
  c.length = 11 + count ∧ c.take 4 = [255, 255, 253, 0]
    ∧ c.getD 5 0 + 256 * c.getD 6 0 = 4 + count ∧ c.getD 8 0 = 0
    ∧ c.drop (9 + count) = u16le (crc16 (c.take (9 + count)))

instance (c : List Nat) (count : Nat) : Decidable (goodStatus c count) := by
  unfold goodStatus; infer_instance

/-- A concrete attempt body used to exercise the retry loop: fails
(growing the stream as a side effect) until the stream holds two bytes,
then succeeds with 7. -/
def demoBody (p : Port) : RRes Nat × Port :=
  if p.rx.length = 2 then (.ok 7, p) else (.err .timedOut, ⟨p.tx, p.rx ++ [0]⟩)

theorem sum8_aux (l : List Nat) : ∀ acc, acc < 256 → l.foldl (fun a b => (a + b) % 256) acc < 256 := by
  induction l with
  | nil => intro acc h; simpa using h
  | cons x xs ih => intro acc h; exact ih _ (Nat.mod_lt _ (by omega))

theorem sum8_lt (l : List Nat) : sum8 l < 256 := sum8_aux l 0 (by omega)

theorem bnot_bnot (x : Nat) (h : x < 256) : bnot (bnot x) = x := by
  unfold bnot; omega

theorem v1Frame_length (id instr : Nat) (params : List Nat) :
    (v1Frame id instr params).length = 6 + params.length := by
  simp [v1Frame]; omega

theorem u16le_length (x : Nat) : (u16le x).length = 2 := rfl

theorem v2Frame_length (id instr : Nat) (params : List Nat) :
    (v2Frame id instr params).length = 10 + params.length := by
  simp [v2Frame, u16le]; omega

theorem readRegion_length (b : Buf) (s : Nat) : ∀ n, (readRegion b s n).length = n := by
  intro n
  induction n generalizing s with
  | zero => rfl
  | succ m ih => simp [readRegion, ih]

theorem readRegion_eq_list (g : Nat → Nat) (c : Nat) :
    ∀ (l : List Nat) (s : Nat), (∀ i, i < l.length → g (s + i) = l.getD i 0) →
      readRegion ⟨g, c⟩ s l.length = l := by
  intro l
  induction l with
  | nil => intro s _; rfl
  | cons x xs ih =>
    intro s h
    have hx : g s = x := by simpa using h 0 (by simp)
    have hr : readRegion ⟨g, c⟩ (s + 1) xs.length = xs := by
      refine ih (s + 1) ?_
      intro i hi
      have hh := h (i + 1) (by simpa using Nat.succ_lt_succ hi)
      rw [show s + 1 + i = s + (i + 1) by omega]
      simpa using hh
    simp [readRegion, hx, hr]

theorem getD_drop (l : List Nat) : ∀ s i, (l.drop s).getD i 0 = l.getD (s + i) 0 := by
  induction l with
  | nil => intro s i; simp
  | cons x xs ih =>
    intro s i
    cases s with
    | zero => simp
    | succ t =>
      rw [List.drop_succ_cons, ih t i, Nat.succ_add, List.getD_cons_succ]

theorem getD_take (l : List Nat) : ∀ n i, i < n → (l.take n).getD i 0 = l.getD i 0 := by
  induction l with
  | nil => intro n i _; simp
  | cons x xs ih =>
    intro n i hi
    cases n with
    | zero => omega
    | succ m =>
      cases i with
      | zero => simp
      | succ j => simpa using ih m j (by omega)

theorem writeSlice_cap (b : Buf) (s : Nat) (src : List Nat) (b' : Buf)
    (h : writeSlice b s src = some b') : b'.cap = b.cap := by
  unfold writeSlice at h
  split at h
  · cases h; rfl
  · cases h

theorem writeSlice_bound (b : Buf) (s : Nat) (src : List Nat) (b' : Buf)
    (h : writeSlice b s src = some b') : s + src.length ≤ b.cap := by
  unfold writeSlice at h
  split at h
  · assumption
  · cases h

theorem writeSlice_data (b : Buf) (s : Nat) (src : List Nat) (b' : Buf)
    (h : writeSlice b s src = some b') :
    ∀ j, b'.data j = if s ≤ j ∧ j < s + src.length then src.getD (j - s) 0 else b.data j := by
  unfold writeSlice at h
  split at h
  · cases h; intro j; rfl
  · cases h

theorem writeSlice_data_in (b : Buf) (s : Nat) (src : List Nat) (b' : Buf)
    (h : writeSlice b s src = some b') :
    ∀ j, s ≤ j → j < s + src.length → b'.data j = src.getD (j - s) 0 := by
  intro j h1 h2
  rw [writeSlice_data b s src b' h j, if_pos ⟨h1, h2⟩]

theorem writeSlice_isSome (b : Buf) (s : Nat) (src : List Nat) (h : s + src.length ≤ b.cap) :
    ∃ b', writeSlice b s src = some b' := by
  unfold writeSlice
  exact ⟨_, by rw [if_pos h]⟩

theorem readRegion_drop_take (b : Buf) (l : List Nat) (b' : Buf)
    (h : writeSlice b 0 l = some b') (s n : Nat) (hn : s + n ≤ l.length) :
    readRegion b' s n = (l.drop s).take n := by
  have hlen : ((l.drop s).take n).length = n := by
    simp [List.length_take, List.length_drop]; omega
  obtain ⟨g, c⟩ := b'
  have main : readRegion ⟨g, c⟩ s ((l.drop s).take n).length = (l.drop s).take n := by
    refine readRegion_eq_list g c _ s ?_
    intro i hi
    rw [hlen] at hi
    have hd := writeSlice_data_in b 0 l ⟨g, c⟩ h (s + i) (by omega) (by omega)
    simp only [Nat.zero_add, Nat.sub_zero] at hd
    rw [getD_take _ n i hi, getD_drop]
    exact hd
  rw [hlen] at main
  exact main

theorem readRegion_full (b : Buf) (l : List Nat) (b' : Buf)
    (h : writeSlice b 0 l = some b') : readRegion b' 0 l.length = l := by
  rw [readRegion_drop_take b l b' h 0 l.length (by omega)]
  simp

theorem mkBuf_cap (n : Nat) : (mkBuf n).cap = n := rfl

theorem retrySt_all_fail {α : Type} (body : Port → RRes α × Port) (ps : Nat → Port)
    (es : Nat → ProtocolError) (k : Nat)
    (hfail : ∀ i, i < k → body (ps i) = (.err (es i), ps (i + 1))) :
    ∀ n i, i + n < k → retrySt body n (ps i) = (.err (es (i + n)), ps (i + n + 1)) := by
  intro n
  induction n with
  | zero =>
    intro i h
    simpa [retrySt] using hfail i (by omega)
  | succ m ih =>
    intro i h
    have hb := hfail i (by omega)
    have hr := ih (i + 1) (by omega)
    simp only [retrySt, hb]
    rw [show i + (m + 1) = i + 1 + m by omega, show i + 1 + m + 1 = i + 1 + m + 1 by omega]
    exact hr

theorem retrySt_first_ok {α : Type} (body : Port → RRes α × Port) (ps : Nat → Port)
    (es : Nat → ProtocolError) (k : Nat) (v : α) (p' : Port)
    (hfail : ∀ i, i < k → body (ps i) = (.err (es i), ps (i + 1)))
    (hok : body (ps k) = (.ok v, p')) :
    ∀ n i, i ≤ k → k ≤ i + n → retrySt body n (ps i) = (.ok v, p') := by
  intro n
  induction n with
  | zero =>
    intro i h1 h2
    have : i = k := by omega
    subst this
    simpa [retrySt] using hok
  | succ m ih =>
    intro i h1 h2
    by_cases hik : i = k
    · subst hik
      simp [retrySt, hok]
    · have hb := hfail i (by omega)
      simp only [retrySt, hb]
      exact ih (i + 1) (by omega) (by omega)

/-- C3: every master operation except scan runs its single-attempt body
through `retrySt` (see `protocolV2_read`, `protocolV2_write`,
`protocolV2_sync_write`, `protocolV2_sync_read`, `protocolV1_read`, which
are definitionally `retrySt` of their bodies).  If the body fails on the
first `k` invocations and succeeds on invocation `k + 1`, the operation
returns that success exactly when `k ≤ retries`; when `k > retries` it
stops after `retries + 1` attempts and returns the error of the last
attempt. -/
theorem c3_retry_semantics {α : Type} (body : Port → RRes α × Port) (ps : Nat → Port)
    (es : Nat → ProtocolError) (k retries : Nat) (v : α) (p' : Port)
    (hfail : ∀ i, i < k → body (ps i) = (.err (es i), ps (i + 1)))
    (hok : body (ps k) = (.ok v, p')) :
    retrySt body retries (ps 0) =
      if k ≤ retries then (.ok v, p') else (.err (es retries), ps (retries + 1)) := by
  by_cases h : k ≤ retries
  · rw [if_pos h]
    exact retrySt_first_ok body ps es k v p' hfail hok retries 0 (by omega) (by omega)
  · rw [if_neg h]
    simpa using retrySt_all_fail body ps es k hfail retries 0 (by omega)

/-- Witness for C3: a body failing twice then succeeding, run with
`retries = 3`, returns the success (and the state of the successful
attempt). -/
theorem c3_retry_semantics_witness :
    (∀ i, i < 2 → demoBody ⟨[], List.replicate i 0⟩
        = (.err .timedOut, ⟨[], List.replicate (i + 1) 0⟩))
    ∧ demoBody ⟨[], List.replicate 2 0⟩ = (.ok 7, ⟨[], List.replicate 2 0⟩)
    ∧ retrySt demoBody 3 ⟨[], []⟩ = (.ok 7, ⟨[], [0, 0]⟩) := by
  refine ⟨by decide, by decide, ?_⟩
  have h := c3_retry_semantics demoBody (fun i => ⟨[], List.replicate i 0⟩)
    (fun _ => .timedOut) 2 3 7 ⟨[], List.replicate 2 0⟩ (by decide) (by decide)
  simpa [List.replicate] using h

/-- C10: `sync_write` with an empty data list reads `data[0]` before any
argument validation, so it panics (index out of bounds) rather than
returning `Ok` or `InvalidArg`, for every retry budget, port state, id
list and address. -/
theorem c10_sync_write_empty_panics (retries : Nat) (p : Port) (ids : List Nat) (addr : Nat) :
    protocolV2_sync_write retries p ids addr [] = (.panic .indexOutOfBounds, p) := by
  cases retries with
  | zero => rfl
  | succ n => rfl

/-- C2: on the well-formed status frame `FF FF 01 02 24 D8` (valid header,
length and checksum, error byte 0x24) `decode_status_v1` returns
`BadPacket`, and in fact no input at all can make it return
`StatusError`: the guard `csum != !buffer[5+plen] || buffer[4] != 0`
already rejects every frame with a non-zero error byte, leaving the
explicit `StatusError` branch unreachable. -/
theorem c2_error_classification :
    resErr (decode_status_v1 (bufOfList [255, 255, 1, 2, 36, 216]) (mkBuf 255))
        = some .badPacket
    ∧ ∀ (b ps : Buf) (e : Nat), decode_status_v1 b ps ≠ .err (.statusError e) := by
  constructor
  · decide
  · intro b ps e
    unfold decode_status_v1
    split_ifs with h1 h2 h3 h4
    · simp
    · simp
    · simp
    · exact absurd (Or.inr h4) h3
    · cases hw : writeSlice ps 0 (readRegion b 5 (b.data 3 - 2)) <;> simp

theorem encodeV1_ok (b : Buf) (id instr : Nat) (params : List Nat)
    (h : 6 + params.length ≤ b.cap) :
    ∃ b', encode_instruction_v1 b id instr params = .ok (b', 6 + params.length)
      ∧ writeSlice b 0 (v1Frame id instr params) = some b'
      ∧ readRegion b' 0 (6 + params.length) = v1Frame id instr params
      ∧ b'.cap = b.cap
      ∧ ∀ j, 6 + params.length ≤ j → b'.data j = b.data j := by
  have hassert : (2 + params.length) % 256 ≤ b.cap :=
    le_trans (Nat.mod_le _ _) (by omega)
  obtain ⟨b', hw⟩ := writeSlice_isSome b 0 (v1Frame id instr params)
    (by rw [v1Frame_length]; omega)
  refine ⟨b', ?_, hw, ?_, writeSlice_cap _ _ _ _ hw, ?_⟩
  · unfold encode_instruction_v1
    rw [if_pos hassert, hw]
  · have hf := readRegion_full b _ b' hw
    rwa [v1Frame_length] at hf
  · intro j hj
    rw [writeSlice_data b 0 _ b' hw j, if_neg]
    rw [v1Frame_length]
    omega

theorem encodeV2_ok (b : Buf) (id instr : Nat) (params : List Nat)
    (h : 10 + params.length ≤ b.cap) :
    ∃ b', encode_instruction_v2 b id instr params = .ok (b', 10 + params.length)
      ∧ writeSlice b 0 (v2Frame id instr params) = some b'
      ∧ readRegion b' 0 (10 + params.length) = v2Frame id instr params
      ∧ b'.cap = b.cap
      ∧ ∀ j, 10 + params.length ≤ j → b'.data j = b.data j := by
  have hassert : (3 + params.length) % 65536 ≤ b.cap :=
    le_trans (Nat.mod_le _ _) (by omega)
  obtain ⟨b', hw⟩ := writeSlice_isSome b 0 (v2Frame id instr params)
    (by rw [v2Frame_length]; omega)
  refine ⟨b', ?_, hw, ?_, writeSlice_cap _ _ _ _ hw, ?_⟩
  · unfold encode_instruction_v2
    rw [if_pos hassert, hw]
  · have hf := readRegion_full b _ b' hw
    rwa [v2Frame_length] at hf
  · intro j hj
    rw [writeSlice_data b 0 _ b' hw j, if_neg]
    rw [v2Frame_length]
    omega

/-- C9 counterexample: with an empty parameter list and a 5-byte buffer,
`|params| + 6 = 6 > 5`, yet the precondition check (the `assert!`, which
only tests `(2 + |params|) as u8 <= buffer.len()`, i.e. `2 <= 5`) passes;
the encoder then dies on an out-of-bounds index instead. -/
theorem c9_counterexample :
    encode_instruction_v1 (mkBuf 5) 1 1 [] = .panic .indexOutOfBounds
    ∧ encode_instruction_v1 (mkBuf 5) 1 1 [] ≠ .panic .assertFailed
    ∧ (mkBuf 5).cap < ([] : List Nat).length + 6 := by
  refine ⟨rfl, ?_, by simp [mkBuf]⟩
  intro h
  rw [show encode_instruction_v1 (mkBuf 5) 1 1 [] = .panic .indexOutOfBounds from rfl] at h
  simp at h

/-- C9 amended: the precondition check of `encode_instruction_v1` fails
exactly when `(2 + |params|) as u8` exceeds the buffer capacity (not when
`|params| + 6` does); whenever `|params| + 6 ≤ capacity` the assert
passes, the complete `6 + |params|`-byte frame is written entirely in
bounds — bytes beyond the frame are untouched — and `6 + |params|` is
returned. -/
theorem c9_amended (b : Buf) (id instr : Nat) (params : List Nat) :
    (encode_instruction_v1 b id instr params = .panic .assertFailed
      ↔ b.cap < (2 + params.length) % 256)
    ∧ (6 + params.length ≤ b.cap →
        ∃ b', encode_instruction_v1 b id instr params = .ok (b', 6 + params.length)
          ∧ readRegion b' 0 (6 + params.length) = v1Frame id instr params
          ∧ b'.cap = b.cap
          ∧ ∀ j, 6 + params.length ≤ j → b'.data j = b.data j) := by
  constructor
  · constructor
    · intro h
      unfold encode_instruction_v1 at h
      split_ifs at h with hc
      · cases hw : writeSlice b 0 (v1Frame id instr params) with
        | some b' => rw [hw] at h; cases h
        | none => rw [hw] at h; cases h
      · omega
    · intro h
      unfold encode_instruction_v1
      rw [if_neg (by omega)]
  · intro h
    obtain ⟨b', h1, _, h3, h4, h5⟩ := encodeV1_ok b id instr params h
    exact ⟨b', h1, h3, h4, h5⟩

/-- Witness for C9 (amended): a 10-byte buffer and one param. -/
theorem c9_amended_witness :
    6 + ([3] : List Nat).length ≤ (mkBuf 10).cap
    ∧ ∃ b', encode_instruction_v1 (mkBuf 10) 1 2 [3] = .ok (b', 6 + ([3] : List Nat).length)
        ∧ readRegion b' 0 (6 + ([3] : List Nat).length) = v1Frame 1 2 [3]
        ∧ b'.cap = (mkBuf 10).cap
        ∧ ∀ j, 6 + ([3] : List Nat).length ≤ j → b'.data j = (mkBuf 10).data j := by
  exact ⟨by simp [mkBuf], (c9_amended (mkBuf 10) 1 2 [3]).2 (by simp [mkBuf])⟩

/-- C4 counterexample: two ids with payloads of different lengths — the
claim demands `InvalidArg`, but `sync_write1` succeeds, writing the frame. -/
theorem c4_counterexample :
    (syncWrite1 ⟨[], []⟩ [1, 2] 0 [[0], [1, 2]]).1 = .ok ()
    ∧ (syncWrite1 ⟨[], []⟩ [1, 2] 0 [[0], [1, 2]]).1 ≠ .err .invalidArg
    ∧ ([0] : List Nat).length ≠ ([1, 2] : List Nat).length := by
  refine ⟨by decide, ?_, by decide⟩
  intro h
  rw [show (syncWrite1 ⟨[], []⟩ [1, 2] 0 [[0], [1, 2]]).1 = .ok () from by decide] at h
  cases h

/-- C4 amended: `sync_write1` fails with `InvalidArg` exactly when
`|ids| ≠ |data|` (for non-empty data); unequal per-ID payload lengths are
not rejected — the single broadcast frame (id 0xFE, opcode 0x83, params
`addr_lo addr_hi len_lo len_hi` with `len` taken from `data[0]`, then each
`id_i` followed by its payload in order) is still written, and no reply is
read (the incoming stream is untouched). -/
theorem c4_amended (p : Port) (ids : List Nat) (addr : Nat) (d0 : List Nat)
    (data' : List (List Nat)) :
    (ids.length ≠ (d0 :: data').length →
      syncWrite1 p ids addr (d0 :: data') = (.err .invalidArg, p))
    ∧ (ids.length = (d0 :: data').length →
       10 + (u16le addr ++ u16le (d0.length % 65536)
          ++ interleavePairs (ids.zip (d0 :: data'))).length ≤ 65535 →
      syncWrite1 p ids addr (d0 :: data')
        = (.ok (), ⟨p.tx ++ [v2Frame 254 131 (u16le addr ++ u16le (d0.length % 65536)
            ++ interleavePairs (ids.zip (d0 :: data')))], p.rx⟩)) := by
  constructor
  · intro h
    simp only [syncWrite1]
    rw [if_pos h]
  · intro h hfit
    simp only [syncWrite1]
    rw [if_neg (fun hh => hh h), if_pos (by omega)]
    obtain ⟨b', h1, _, h3, _, _⟩ := encodeV2_ok (mkBuf 65535) 254 131
      (u16le addr ++ u16le (d0.length % 65536) ++ interleavePairs (ids.zip (d0 :: data')))
      (by simpa [mkBuf] using hfit)
    rw [h1]
    simp only [portWrite]
    rw [h3]

/-- Witness for C4 (amended): both clauses at concrete arguments. -/
theorem c4_amended_witness :
    (([1] : List Nat).length ≠ ([[5], [6]] : List (List Nat)).length
      ∧ syncWrite1 ⟨[], []⟩ [1] 0 [[5], [6]] = (.err .invalidArg, ⟨[], []⟩))
    ∧ (([1, 2] : List Nat).length = ([[5], [6]] : List (List Nat)).length
      ∧ 10 + (u16le 0 ++ u16le (([5] : List Nat).length % 65536)
          ++ interleavePairs ([1, 2].zip [[5], [6]])).length ≤ 65535
      ∧ syncWrite1 ⟨[], []⟩ [1, 2] 0 [[5], [6]]
        = (.ok (), ⟨[] ++ [v2Frame 254 131 (u16le 0 ++ u16le (([5] : List Nat).length % 65536)
            ++ interleavePairs ([1, 2].zip [[5], [6]]))], []⟩)) := by
  refine ⟨⟨by decide, (c4_amended ⟨[], []⟩ [1] 0 [5] [[6]]).1 (by decide)⟩,
    ⟨by decide, by decide, (c4_amended ⟨[], []⟩ [1, 2] 0 [5] [[6]]).2 (by decide) (by decide)⟩⟩

theorem decodeV1_of_encode (b b' ps : Buf) (id : Nat) (params : List Nat)
    (hpl : params.length ≤ 253)
    (hw : writeSlice b 0 (v1Frame id 0 params) = some b')
    (hps : params.length ≤ ps.cap) :
    ∃ ps', decode_status_v1 b' ps = .ok (ps', 6 + params.length)
      ∧ readRegion ps' 0 params.length = params := by
  have hL : (2 + params.length) % 256 = 2 + params.length := Nat.mod_eq_of_lt (by omega)
  have hFlen : (v1Frame id 0 params).length = 6 + params.length := v1Frame_length id 0 params
  have hcap : 6 + params.length ≤ b'.cap := by
    have h1 := writeSlice_bound b 0 _ b' hw
    have h2 := writeSlice_cap b 0 _ b' hw
    rw [hFlen] at h1
    omega
  have d3 : b'.data 3 = 2 + params.length := by
    have h := writeSlice_data_in b 0 _ b' hw 3 (by omega) (by rw [Nat.zero_add, hFlen]; omega)
    rw [h]
    simp [v1Frame, hL]
  have d4 : b'.data 4 = 0 := by
    have h := writeSlice_data_in b 0 _ b' hw 4 (by omega) (by rw [Nat.zero_add, hFlen]; omega)
    rw [h]
    simp [v1Frame]
  have hreg02 : readRegion b' 0 2 = [255, 255] := by
    rw [readRegion_drop_take b _ b' hw 0 2 (by rw [hFlen]; omega)]
    simp [v1Frame]
  have hbody : readRegion b' 2 (3 + params.length)
      = id :: (2 + params.length) % 256 :: 0 :: params := by
    rw [readRegion_drop_take b _ b' hw 2 (3 + params.length) (by rw [hFlen]; omega)]
    rw [show (v1Frame id 0 params).drop 2
        = (id :: (2 + params.length) % 256 :: 0 :: params)
          ++ [bnot (sum8 (id :: (2 + params.length) % 256 :: 0 :: params))] from by simp [v1Frame]]
    exact List.take_left' (by simp only [List.length_cons]; omega)
  have hcsb : b'.data (5 + params.length)
      = bnot (sum8 (id :: (2 + params.length) % 256 :: 0 :: params)) := by
    have h := readRegion_drop_take b _ b' hw (5 + params.length) 1 (by rw [hFlen]; omega)
    rw [show (v1Frame id 0 params).drop (5 + params.length)
        = [bnot (sum8 (id :: (2 + params.length) % 256 :: 0 :: params))] from by
      rw [show v1Frame id 0 params
          = (255 :: 255 :: id :: (2 + params.length) % 256 :: 0 :: params)
            ++ [bnot (sum8 (id :: (2 + params.length) % 256 :: 0 :: params))] from by
        simp [v1Frame]]
      exact List.drop_left' (by simp only [List.length_cons]; omega)] at h
    simpa [readRegion] using h
  have hreg5 : readRegion b' 5 params.length = params := by
    rw [readRegion_drop_take b _ b' hw 5 params.length (by rw [hFlen]; omega)]
    rw [show (v1Frame id 0 params).drop 5
        = params ++ [bnot (sum8 (id :: (2 + params.length) % 256 :: 0 :: params))] from by
      simp [v1Frame]]
    exact List.take_left' rfl
  obtain ⟨ps', hw2⟩ := writeSlice_isSome ps 0 params (by omega)
  refine ⟨ps', ?_, ?_⟩
  · unfold decode_status_v1
    rw [d3, Nat.add_sub_cancel_left]
    rw [if_neg (by omega)]
    rw [if_neg (by simp [hreg02]; omega)]
    rw [if_neg (by rw [hbody, hcsb, bnot_bnot _ (sum8_lt _), d4]; simp)]
    rw [if_neg (by rw [d4]; simp)]
    rw [hreg5, hw2]
  · exact readRegion_full ps params ps' hw2

theorem v2Frame_zero_cons (id instr : Nat) (rest : List Nat) (hpl : rest.length ≤ 65531) :
    v2Frame id instr (0 :: rest)
      = (255 :: 255 :: 253 :: 0 :: id :: (4 + rest.length) % 256
          :: (4 + rest.length) / 256 % 256 :: instr :: 0 :: rest)
        ++ u16le (crc16 (255 :: 255 :: 253 :: 0 :: id :: (4 + rest.length) % 256
          :: (4 + rest.length) / 256 % 256 :: instr :: 0 :: rest)) := by
  have hL : (3 + (rest.length + 1)) % 65536 = 4 + rest.length := by omega
  simp [v2Frame, hL, u16le]

theorem decodeV2_of_encode (b b' ps : Buf) (id instr : Nat) (rest : List Nat)
    (hpl : rest.length ≤ 65531)
    (hw : writeSlice b 0 (v2Frame id instr (0 :: rest)) = some b')
    (hps : rest.length ≤ ps.cap) :
    ∃ ps', decode_status_v2 b' ps = .ok (ps', 10 + rest.length)
      ∧ readRegion ps' 0 rest.length = rest := by
  have hFlen : (v2Frame id instr (0 :: rest)).length = 11 + rest.length := by
    rw [v2Frame_length]
    simp only [List.length_cons]
    omega
  have hcap : 11 + rest.length ≤ b'.cap := by
    have h1 := writeSlice_bound b 0 _ b' hw
    have h2 := writeSlice_cap b 0 _ b' hw
    rw [hFlen] at h1
    omega
  have hcons := v2Frame_zero_cons id instr rest hpl
  have hget : ∀ j, j < 11 + rest.length →
      b'.data j = (v2Frame id instr (0 :: rest)).getD j 0 := by
    intro j hj
    have h := writeSlice_data_in b 0 _ b' hw j (by omega) (by rw [Nat.zero_add, hFlen]; omega)
    simpa using h
  have d5 : b'.data 5 = (4 + rest.length) % 256 := by
    rw [hget 5 (by omega), hcons]
    simp
  have d6 : b'.data 6 = (4 + rest.length) / 256 % 256 := by
    rw [hget 6 (by omega), hcons]
    simp
  have hlen56 : b'.data 5 + 256 * b'.data 6 = 4 + rest.length := by
    rw [d5, d6]
    omega
  have d8 : b'.data 8 = 0 := by
    rw [hget 8 (by omega), hcons]
    simp
  have hreg04 : readRegion b' 0 4 = [255, 255, 253, 0] := by
    rw [readRegion_drop_take b _ b' hw 0 4 (by rw [hFlen]; omega), hcons]
    simp
  have hcrcin : readRegion b' 0 (9 + rest.length)
      = 255 :: 255 :: 253 :: 0 :: id :: (4 + rest.length) % 256
          :: (4 + rest.length) / 256 % 256 :: instr :: 0 :: rest := by
    rw [readRegion_drop_take b _ b' hw 0 (9 + rest.length) (by rw [hFlen]; omega), hcons]
    rw [List.drop_zero]
    exact List.take_left' (by simp only [List.length_cons]; omega)
  have hcrcb : readRegion b' (9 + rest.length) 2
      = u16le (crc16 (255 :: 255 :: 253 :: 0 :: id :: (4 + rest.length) % 256
          :: (4 + rest.length) / 256 % 256 :: instr :: 0 :: rest)) := by
    rw [readRegion_drop_take b _ b' hw (9 + rest.length) 2 (by rw [hFlen]; omega), hcons]
    rw [List.drop_left' (by simp only [List.length_cons]; omega)]
    exact List.take_of_length_le (by rw [u16le_length])
  have hregp : readRegion b' 9 rest.length = rest := by
    rw [readRegion_drop_take b _ b' hw 9 rest.length (by rw [hFlen]; omega), hcons]
    have hdrop : ((255 :: 255 :: 253 :: 0 :: id :: (4 + rest.length) % 256
          :: (4 + rest.length) / 256 % 256 :: instr :: 0 :: rest)
        ++ u16le (crc16 (255 :: 255 :: 253 :: 0 :: id :: (4 + rest.length) % 256
          :: (4 + rest.length) / 256 % 256 :: instr :: 0 :: rest))).drop 9
        = rest ++ u16le (crc16 (255 :: 255 :: 253 :: 0 :: id :: (4 + rest.length) % 256
          :: (4 + rest.length) / 256 % 256 :: instr :: 0 :: rest)) := by
      simp
    rw [hdrop]
    exact List.take_left' rfl
  obtain ⟨ps', hw2⟩ := writeSlice_isSome ps 0 rest (by omega)
  refine ⟨ps', ?_, readRegion_full ps rest ps' hw2⟩
  unfold decode_status_v2
  rw [hlen56, Nat.add_sub_cancel_left]
  rw [if_neg (by omega)]
  rw [if_neg (by omega)]
  rw [if_neg (by simp [hreg04]; omega)]
  have hsl : readSliceB b' (9 + rest.length) 2
      = some (u16le (crc16 (255 :: 255 :: 253 :: 0 :: id :: (4 + rest.length) % 256
          :: (4 + rest.length) / 256 % 256 :: instr :: 0 :: rest))) := by
    unfold readSliceB
    rw [if_pos (by omega), hcrcb]
  simp only [hsl]
  rw [if_neg (by rw [hcrcin]; simp)]
  rw [if_neg (by rw [d8]; simp)]
  rw [hregp, hw2]

/-- C1 counterexample: encode the V1 ping frame (id 1, opcode 1, no
params), then set the frame's error-byte slot (index 4 — the opcode slot
of an instruction frame) to zero.  The checksum was computed over the
original opcode byte, so decoding the modified frame fails with
`BadPacket` instead of succeeding. -/
theorem c1_counterexample :
    v1Frame 1 1 [] = [255, 255, 1, 2, 1, 251]
    ∧ (v1Frame 1 1 []).set 4 0 = [255, 255, 1, 2, 0, 251]
    ∧ resErr (decode_status_v1 (bufOfList [255, 255, 1, 2, 0, 251]) (mkBuf 255))
        = some .badPacket := by
  decide

/-- C1 amended: the codec round-trip holds when the byte occupying the
error-byte slot is zero at encode time (so the checksum/CRC covers it):
for V1, `decode_status_v1 ∘ encode_instruction_v1` with opcode 0 (the
error slot is the opcode slot) succeeds with the frame length and returns
the params unchanged; for V2 the error slot is the first encoder param,
so encoding `0 :: rest` decodes successfully to `rest` (the decoder's
return value is `10 + |rest|`, one less than the 11 + |rest| frame
length). -/
theorem c1_amended (id1 : Nat) (params1 : List Nat) (id2 instr2 : Nat) (rest2 : List Nat)
    (h1 : params1.length ≤ 249) (h2 : rest2.length ≤ 65524) :
    (∃ b1 ps1, encode_instruction_v1 (mkBuf 255) id1 0 params1 = .ok (b1, 6 + params1.length)
      ∧ decode_status_v1 b1 (mkBuf 255) = .ok (ps1, 6 + params1.length)
      ∧ readRegion ps1 0 params1.length = params1)
    ∧ (∃ b2 ps2, encode_instruction_v2 (mkBuf 65535) id2 instr2 (0 :: rest2)
          = .ok (b2, 11 + rest2.length)
      ∧ decode_status_v2 b2 (mkBuf 65535) = .ok (ps2, 10 + rest2.length)
      ∧ readRegion ps2 0 rest2.length = rest2) := by
  constructor
  · obtain ⟨b1, he, hw, _, _, _⟩ := encodeV1_ok (mkBuf 255) id1 0 params1
      (by simp only [mkBuf]; omega)
    obtain ⟨ps1, hd, hr⟩ := decodeV1_of_encode (mkBuf 255) b1 (mkBuf 255) id1 params1
      (by omega) hw (by simp only [mkBuf]; omega)
    exact ⟨b1, ps1, he, hd, hr⟩
  · obtain ⟨b2, he, hw, _, _, _⟩ := encodeV2_ok (mkBuf 65535) id2 instr2 (0 :: rest2)
      (by simp only [mkBuf, List.length_cons]; omega)
    obtain ⟨ps2, hd, hr⟩ := decodeV2_of_encode (mkBuf 65535) b2 (mkBuf 65535) id2 instr2 rest2
      (by omega) hw (by simp only [mkBuf]; omega)
    refine ⟨b2, ps2, ?_, hd, hr⟩
    rw [show (11 : Nat) + rest2.length = 10 + (0 :: rest2).length by
      simp only [List.length_cons]; omega]
    exact he

/-- Witness for C1 (amended): id 1 with params `[9, 8]` on V1, and id 1,
instruction 0x55, error byte 0, params `[7]` on V2. -/
theorem c1_amended_witness :
    (([9, 8] : List Nat).length ≤ 249 ∧ ([7] : List Nat).length ≤ 65524)
    ∧ (∃ b1 ps1, encode_instruction_v1 (mkBuf 255) 1 0 [9, 8] = .ok (b1, 8)
        ∧ decode_status_v1 b1 (mkBuf 255) = .ok (ps1, 8)
        ∧ readRegion ps1 0 2 = [9, 8])
    ∧ (∃ b2 ps2, encode_instruction_v2 (mkBuf 65535) 1 85 (0 :: [7]) = .ok (b2, 12)
        ∧ decode_status_v2 b2 (mkBuf 65535) = .ok (ps2, 11)
        ∧ readRegion ps2 0 1 = [7]) := by
  refine ⟨⟨by decide, by decide⟩, ?_, ?_⟩
  · have h := (c1_amended 1 [9, 8] 1 85 [7] (by decide) (by decide)).1
    simpa using h
  · have h := (c1_amended 1 [9, 8] 1 85 [7] (by decide) (by decide)).2
    simpa using h

theorem portReadExact_tx (p : Port) (n : Nat) (bs : List Nat) (p' : Port)
    (h : portReadExact p n = some (bs, p')) : p'.tx = p.tx := by
  unfold portReadExact at h
  split at h
  · cases h; rfl
  · cases h

theorem read_v1_tx (q : Port) (id addr count : Nat) :
    ((read_v1 q id addr count).2).tx = q.tx ++ [v1Frame id 2 [addr, count]] := by
  obtain ⟨b', he, _, hr, _, _⟩ := encodeV1_ok (mkBuf 255) id 2 [addr, count]
    (by simp only [mkBuf, List.length_cons, List.length_nil]; omega)
  unfold read_v1
  simp only [he, hr]
  split_ifs with h6
  · cases hre : portReadExact (portWrite q (v1Frame id 2 [addr, count])) (6 + count) with
    | none => simp [portWrite]
    | some x =>
      obtain ⟨bs, p2⟩ := x
      have htx := portReadExact_tx _ _ _ _ hre
      simp only [hre]
      cases hws : writeSlice b' 0 bs with
      | none => simp [htx, portWrite]
      | some b2 =>
        cases hd : decode_status_v1 b2 (mkBuf 255) with
        | ok a =>
          obtain ⟨ps, m⟩ := a
          simp [hd, htx, portWrite]
        | err e => simp [hd, htx, portWrite]
        | panic k => simp [hd, htx, portWrite]
  · simp [portWrite]

theorem retrySt_tx {α : Type} (body : Port → RRes α × Port) (f : List Nat)
    (hbody : ∀ q, ((body q).2).tx = q.tx ++ [f]) :
    ∀ n q, ∃ k, 1 ≤ k ∧ ((retrySt body n q).2).tx = q.tx ++ List.replicate k f := by
  intro n
  induction n with
  | zero =>
    intro q
    exact ⟨1, le_refl 1, by simpa using hbody q⟩
  | succ m ih =>
    intro q
    cases hb : body q with
    | mk r q1 =>
      have htx : q1.tx = q.tx ++ [f] := by
        have := hbody q
        rw [hb] at this
        exact this
      cases r with
      | err e =>
        obtain ⟨k, hk1, hk2⟩ := ih q1
        refine ⟨k + 1, by omega, ?_⟩
        simp only [retrySt, hb]
        rw [hk2, htx]
        simp [List.replicate_succ]
      | ok a =>
        refine ⟨1, le_refl 1, ?_⟩
        simp only [retrySt, hb]
        simpa using htx
      | panic k =>
        refine ⟨1, le_refl 1, ?_⟩
        simp only [retrySt, hb]
        simpa using htx

/-- C8: the Protocol 1 master `read` rejects `addr > 0xFE` with
`InvalidAddress` and (for `addr ≤ 0xFE`) `count > 0xFF` with
`InvalidCount`, in both cases before any transport I/O (the port is
returned unchanged); with valid arguments it proceeds to I/O: the write
log is extended by at least one encoded read frame (one per attempt). -/
theorem c8_v1_read_limits (retries : Nat) (p : Port) (id addr count : Nat) :
    (254 < addr → protocolV1_read retries p id addr count = (.err .invalidAddress, p))
    ∧ (addr ≤ 254 → 255 < count → protocolV1_read retries p id addr count
        = (.err .invalidCount, p))
    ∧ (addr ≤ 254 → count ≤ 255 →
        ∃ k, 1 ≤ k ∧ ((protocolV1_read retries p id addr count).2).tx
          = p.tx ++ List.replicate k (v1Frame id 2 [addr, count])) := by
  refine ⟨?_, ?_, ?_⟩
  · intro h
    unfold protocolV1_read
    rw [if_pos h]
  · intro h1 h2
    unfold protocolV1_read
    rw [if_neg (by omega), if_pos h2]
  · intro h1 h2
    unfold protocolV1_read
    rw [if_neg (by omega), if_neg (by omega)]
    exact retrySt_tx _ _ (fun q => read_v1_tx q id addr count) retries p

/-- Witness for C8: all three clauses at concrete arguments (`addr = 300`,
then `count = 300`, then a valid `addr = 5, count = 1` call). -/
theorem c8_v1_read_limits_witness :
    (254 < 300 ∧ protocolV1_read 0 ⟨[], []⟩ 1 300 1 = (.err .invalidAddress, ⟨[], []⟩))
    ∧ (5 ≤ 254 ∧ 255 < 300 ∧ protocolV1_read 0 ⟨[], []⟩ 1 5 300
        = (.err .invalidCount, ⟨[], []⟩))
    ∧ (∃ k, 1 ≤ k ∧ ((protocolV1_read 0 ⟨[], []⟩ 1 5 1).2).tx
        = [] ++ List.replicate k (v1Frame 1 2 [5, 1])) := by
  refine ⟨⟨by decide, (c8_v1_read_limits 0 ⟨[], []⟩ 1 300 1).1 (by decide)⟩,
    ⟨by decide, by decide, (c8_v1_read_limits 0 ⟨[], []⟩ 1 5 300).2.1 (by decide) (by decide)⟩,
    ?_⟩
  have h := (c8_v1_read_limits 0 ⟨[], []⟩ 1 5 1).2.2 (by decide) (by decide)
  simpa using h

theorem decode_goodChunk (buffer params b2 : Buf) (c : List Nat) (count : Nat)
    (hgood : goodStatus c count)
    (hpc : params.cap = 65535) (hcount : count ≤ 65524)
    (hw : writeSlice buffer 0 c = some b2) (hbc : buffer.cap = 65535) :
    ∃ ps', decode_status_v2 b2 params = .ok (ps', 10 + count)
      ∧ readRegion ps' 0 count = (c.drop 9).take count
      ∧ ps'.cap = params.cap := by
  obtain ⟨hlen, hhdr, hlf, herr, hcrc⟩ := hgood
  have hb2cap : b2.cap = 65535 := by rw [writeSlice_cap _ _ _ _ hw, hbc]
  have hget : ∀ j, j < 11 + count → b2.data j = c.getD j 0 := by
    intro j hj
    have h := writeSlice_data_in buffer 0 c b2 hw j (by omega) (by rw [Nat.zero_add, hlen]; omega)
    simpa using h
  have d56 : b2.data 5 + 256 * b2.data 6 = 4 + count := by
    rw [hget 5 (by omega), hget 6 (by omega)]
    exact hlf
  have d8 : b2.data 8 = 0 := by
    rw [hget 8 (by omega)]
    exact herr
  have hreg04 : readRegion b2 0 4 = [255, 255, 253, 0] := by
    rw [readRegion_drop_take buffer c b2 hw 0 4 (by omega), List.drop_zero]
    exact hhdr
  have hcrcin : readRegion b2 0 (9 + count) = c.take (9 + count) := by
    rw [readRegion_drop_take buffer c b2 hw 0 (9 + count) (by omega), List.drop_zero]
  have hcrcb : readRegion b2 (9 + count) 2 = c.drop (9 + count) := by
    rw [readRegion_drop_take buffer c b2 hw (9 + count) 2 (by omega)]
    exact List.take_of_length_le (by rw [List.length_drop]; omega)
  have hregp : readRegion b2 9 count = (c.drop 9).take count :=
    readRegion_drop_take buffer c b2 hw 9 count (by omega)
  have htklen : ((c.drop 9).take count).length = count := by
    rw [List.length_take, List.length_drop, hlen]
    omega
  obtain ⟨ps', hw2⟩ := writeSlice_isSome params 0 ((c.drop 9).take count)
    (by rw [Nat.zero_add, htklen, hpc]; omega)
  refine ⟨ps', ?_, ?_, writeSlice_cap _ _ _ _ hw2⟩
  · unfold decode_status_v2
    rw [d56, Nat.add_sub_cancel_left]
    rw [if_neg (by omega)]
    rw [if_neg (by omega)]
    rw [if_neg (by simp [hreg04]; omega)]
    have hsl : readSliceB b2 (9 + count) 2 = some (c.drop (9 + count)) := by
      unfold readSliceB
      rw [if_pos (by omega), hcrcb]
    simp only [hsl]
    rw [if_neg (by rw [hcrcin, ← hcrc]; simp)]
    rw [if_neg (by rw [d8]; simp)]
    rw [hregp, hw2]
  · have h := readRegion_full params _ ps' hw2
    rwa [htklen] at h

theorem syncReadLoop_good (count : Nat) (hcount : count ≤ 65524) :
    ∀ (ids : List Nat) (chunks : List (List Nat)) (buffer params : Buf)
      (tx : List (List Nat)) (rest : List Nat),
      buffer.cap = 65535 → params.cap = 65535 →
      chunks.length = ids.length → (∀ c ∈ chunks, goodStatus c count) →
      syncReadLoop buffer params ⟨tx, flatAll chunks ++ rest⟩ count ids
        = (.ok (chunks.map (fun c => (c.drop 9).take count)), ⟨tx, rest⟩) := by
  intro ids
  induction ids with
  | nil =>
    intro chunks buffer params tx rest hbc hpc hlen hgood
    have hnil : chunks = [] := List.length_eq_zero.mp (by simpa using hlen)
    subst hnil
    simp [syncReadLoop, flatAll]
  | cons i ids ih =>
    intro chunks buffer params tx rest hbc hpc hlen hgood
    cases chunks with
    | nil => simp at hlen
    | cons c cs =>
      have hgc : goodStatus c count := hgood c (by simp)
      have hgcs : ∀ x ∈ cs, goodStatus x count := fun x hx => hgood x (by simp [hx])
      have hclen : c.length = 11 + count := hgc.1
      have harr : flatAll (c :: cs) ++ rest = c ++ (flatAll cs ++ rest) := by
        simp [flatAll]
      simp only [syncReadLoop]
      rw [if_pos (by omega)]
      have hre : portReadExact ⟨tx, flatAll (c :: cs) ++ rest⟩ (11 + count)
          = some (c, ⟨tx, flatAll cs ++ rest⟩) := by
        simp only [portReadExact, harr]
        rw [if_pos (by simp [List.length_append, hclen])]
        rw [List.take_left' hclen, List.drop_left' hclen]
      simp only [hre]
      obtain ⟨b2, hws⟩ := writeSlice_isSome buffer 0 c (by rw [Nat.zero_add, hclen, hbc]; omega)
      simp only [hws]
      obtain ⟨ps', hd, hr, hpc'⟩ := decode_goodChunk buffer params b2 c count hgc hpc hcount hws hbc
      simp only [hd]
      have hb2c : b2.cap = 65535 := by rw [writeSlice_cap _ _ _ _ hws, hbc]
      have hrec := ih cs b2 ps' tx rest hb2c (by rw [hpc', hpc]) (by simpa using hlen) hgcs
      rw [hrec]
      simp [hr]

theorem syncReadLoop_ok_shape (count : Nat) :
    ∀ (ids : List Nat) (buffer params : Buf) (p : Port) (r : List (List Nat)) (p' : Port),
      syncReadLoop buffer params p count ids = (.ok r, p') →
      r.length = ids.length ∧ ∀ bl ∈ r, bl.length = count := by
  intro ids
  induction ids with
  | nil =>
    intro buffer params p r p' h
    simp only [syncReadLoop, Prod.mk.injEq] at h
    obtain ⟨h1, _⟩ := h
    cases h1
    simp
  | cons i ids ih =>
    intro buffer params p r p' h
    simp only [syncReadLoop] at h
    split_ifs at h with hc
    · cases hre : portReadExact p (11 + count) with
      | none => simp only [hre] at h; simp at h
      | some x =>
        obtain ⟨bytes, p2⟩ := x
        simp only [hre] at h
        cases hws : writeSlice buffer 0 bytes with
        | none => simp only [hws] at h; simp at h
        | some buf2 =>
          simp only [hws] at h
          cases hd : decode_status_v2 buf2 params with
          | err e => simp only [hd] at h; simp at h
          | panic k => simp only [hd] at h; simp at h
          | ok a =>
            obtain ⟨params2, m⟩ := a
            simp only [hd] at h
            cases hrec : syncReadLoop buf2 params2 p2 count ids with
            | mk rr pp =>
              simp only [hrec] at h
              cases rr with
              | ok results =>
                simp only [Prod.mk.injEq] at h
                obtain ⟨h1, _⟩ := h
                cases h1
                obtain ⟨ha, hb⟩ := ih buf2 params2 p2 results pp hrec
                constructor
                · simp [ha]
                · intro bl hbl
                  rcases List.mem_cons.mp hbl with h | h
                  · rw [h, readRegion_length]
                  · exact hb bl h
              | err e => simp at h
              | panic k => simp at h
    · simp at h

theorem syncReadLoop_short (count : Nat) (hcount : count ≤ 65524) :
    ∀ (ids1 : List Nat) (chunks : List (List Nat)) (idx : Nat) (ids2 : List Nat)
      (buffer params : Buf) (tx : List (List Nat)) (short : List Nat),
      buffer.cap = 65535 → params.cap = 65535 →
      chunks.length = ids1.length → (∀ c ∈ chunks, goodStatus c count) →
      short.length < 11 + count →
      syncReadLoop buffer params ⟨tx, flatAll chunks ++ short⟩ count (ids1 ++ idx :: ids2)
        = (.err .timedOut, ⟨tx, short⟩) := by
  intro ids1
  induction ids1 with
  | nil =>
    intro chunks idx ids2 buffer params tx short hbc hpc hlen hgood hshort
    have hnil : chunks = [] := List.length_eq_zero.mp (by simpa using hlen)
    subst hnil
    simp only [flatAll, List.nil_append, List.nil_append]
    simp only [syncReadLoop]
    rw [if_pos (by omega)]
    have hre : portReadExact ⟨tx, short⟩ (11 + count) = none := by
      unfold portReadExact
      rw [if_neg (by simpa using hshort)]
    simp only [hre]
  | cons i ids1 ih =>
    intro chunks idx ids2 buffer params tx short hbc hpc hlen hgood hshort
    cases chunks with
    | nil => simp at hlen
    | cons c cs =>
      have hgc : goodStatus c count := hgood c (by simp)
      have hgcs : ∀ x ∈ cs, goodStatus x count := fun x hx => hgood x (by simp [hx])
      have hclen : c.length = 11 + count := hgc.1
      have harr : flatAll (c :: cs) ++ short = c ++ (flatAll cs ++ short) := by
        simp [flatAll]
      simp only [List.cons_append, syncReadLoop]
      rw [if_pos (by omega)]
      have hre : portReadExact ⟨tx, flatAll (c :: cs) ++ short⟩ (11 + count)
          = some (c, ⟨tx, flatAll cs ++ short⟩) := by
        simp only [portReadExact, harr]
        rw [if_pos (by simp [List.length_append, hclen])]
        rw [List.take_left' hclen, List.drop_left' hclen]
      simp only [hre]
      obtain ⟨b2, hws⟩ := writeSlice_isSome buffer 0 c (by rw [Nat.zero_add, hclen, hbc]; omega)
      simp only [hws]
      obtain ⟨ps', hd, _, hpc'⟩ := decode_goodChunk buffer params b2 c count hgc hpc hcount hws hbc
      simp only [hd]
      have hb2c : b2.cap = 65535 := by rw [writeSlice_cap _ _ _ _ hws, hbc]
      have hrec := ih cs idx ids2 b2 ps' tx short hb2c (by rw [hpc', hpc])
        (by simpa using hlen) hgcs hshort
      simp only [List.append_eq]
      rw [hrec]

theorem syncRead1_unfold (p : Port) (ids : List Nat) (addr count : Nat)
    (hfit : 14 + ids.length ≤ 65535) :
    ∃ b, writeSlice (mkBuf 65535) 0 (v2Frame 254 130 (u16le addr ++ u16le count ++ ids))
        = some b
      ∧ b.cap = 65535
      ∧ syncRead1 p ids addr count
        = syncReadLoop b (mkBuf 65535)
            ⟨p.tx ++ [v2Frame 254 130 (u16le addr ++ u16le count ++ ids)], p.rx⟩ count ids := by
  have hplen : (u16le addr ++ u16le count ++ ids).length = 4 + ids.length := by
    simp [u16le]
    omega
  obtain ⟨b, he, hw, hr, hcap, _⟩ := encodeV2_ok (mkBuf 65535) 254 130
    (u16le addr ++ u16le count ++ ids) (by rw [hplen]; simp only [mkBuf]; omega)
  refine ⟨b, hw, by rw [hcap]; rfl, ?_⟩
  unfold syncRead1
  rw [if_pos (by rw [hplen]; omega)]
  simp only [he]
  rw [hr]
  rfl

theorem flatAll_length_uniform (count : Nat) : ∀ (chunks : List (List Nat)),
    (∀ c ∈ chunks, goodStatus c count) →
    (flatAll chunks).length = chunks.length * (11 + count) := by
  intro chunks
  induction chunks with
  | nil => intro _; simp [flatAll]
  | cons c cs ih =>
    intro hg
    have hc : c.length = 11 + count := (hg c (by simp)).1
    have hr := ih (fun x hx => hg x (by simp [hx]))
    simp only [flatAll, List.length_append, List.length_cons, hc, hr]
    ring

theorem syncRead1_ok_shape (q : Port) (ids : List Nat) (addr count : Nat)
    (r : List (List Nat)) (q' : Port)
    (h : syncRead1 q ids addr count = (.ok r, q')) :
    r.length = ids.length ∧ ∀ bl ∈ r, bl.length = count := by
  unfold syncRead1 at h
  split_ifs at h with hc
  · cases he : encode_instruction_v2 (mkBuf 65535) 254 130 (u16le addr ++ u16le count ++ ids) with
    | ok x =>
      obtain ⟨b, n⟩ := x
      simp only [he] at h
      exact syncReadLoop_ok_shape count ids b (mkBuf 65535) _ r q' h
    | err e => simp only [he] at h; simp at h
    | panic k => simp only [he] at h; simp at h
  · simp at h

/-- C5: `sync_read(ids, addr, count)` first writes the single broadcast
request (id 0xFE, opcode 0x82), then performs one `11 + count`-byte read
per id, in order; when the incoming stream holds one well-formed
`count`-param status packet per id, the call returns the packets' param
blocks in stream (= ids) order and consumes exactly
`|ids| * (11 + count)` bytes; any successful result has exactly `|ids|`
blocks of exactly `count` bytes; and a short read on any one reply fails
the whole attempt with the request already written and the earlier
replies consumed. -/
theorem c5_sync_read (p : Port) (ids : List Nat) (addr count : Nat)
    (chunks : List (List Nat)) (rest : List Nat)
    (hfit : 14 + ids.length ≤ 65535) (hcount : count ≤ 65524)
    (hlen : chunks.length = ids.length) (hgood : ∀ c ∈ chunks, goodStatus c count)
    (hrx : p.rx = flatAll chunks ++ rest) :
    syncRead1 p ids addr count
      = (.ok (chunks.map (fun c => (c.drop 9).take count)),
         ⟨p.tx ++ [v2Frame 254 130 (u16le addr ++ u16le count ++ ids)], rest⟩)
    ∧ (flatAll chunks).length = ids.length * (11 + count)
    ∧ (∀ (q : Port) (r : List (List Nat)) (q' : Port),
        syncRead1 q ids addr count = (.ok r, q') →
        r.length = ids.length ∧ ∀ bl ∈ r, bl.length = count)
    ∧ (∀ (q : Port) (idx : Nat) (ids2 : List Nat) (short : List Nat),
        14 + (ids ++ idx :: ids2).length ≤ 65535 →
        q.rx = flatAll chunks ++ short → short.length < 11 + count →
        syncRead1 q (ids ++ idx :: ids2) addr count
          = (.err .timedOut,
             ⟨q.tx ++ [v2Frame 254 130 (u16le addr ++ u16le count ++ (ids ++ idx :: ids2))],
              short⟩)) := by
  refine ⟨?_, ?_, fun q r q' h => syncRead1_ok_shape q ids addr count r q' h, ?_⟩
  · obtain ⟨b, hw, hbc, hu⟩ := syncRead1_unfold p ids addr count hfit
    rw [hu]
    rw [show (⟨p.tx ++ [v2Frame 254 130 (u16le addr ++ u16le count ++ ids)], p.rx⟩ : Port)
        = ⟨p.tx ++ [v2Frame 254 130 (u16le addr ++ u16le count ++ ids)],
           flatAll chunks ++ rest⟩ from by rw [hrx]]
    exact syncReadLoop_good count hcount ids chunks b (mkBuf 65535) _ rest hbc rfl hlen hgood
  · rw [← hlen]
    exact flatAll_length_uniform count chunks hgood
  · intro q idx ids2 short hfit2 hq hshort
    obtain ⟨b, hw, hbc, hu⟩ := syncRead1_unfold q (ids ++ idx :: ids2) addr count hfit2
    rw [hu]
    rw [show (⟨q.tx ++ [v2Frame 254 130 (u16le addr ++ u16le count ++ (ids ++ idx :: ids2))],
           q.rx⟩ : Port)
        = ⟨q.tx ++ [v2Frame 254 130 (u16le addr ++ u16le count ++ (ids ++ idx :: ids2))],
           flatAll chunks ++ short⟩ from by rw [hq]]
    exact syncReadLoop_short count hcount ids chunks idx ids2 b (mkBuf 65535) _ short
      hbc rfl hlen hgood hshort

set_option maxRecDepth 100000 in
/-- Witness for C5: one id, `count = 1`, the stream holding a single
well-formed status packet with param byte 0x20. -/
theorem c5_sync_read_witness :
    goodStatus [255, 255, 253, 0, 1, 5, 0, 85, 0, 32, 144, 161] 1
    ∧ syncRead1 ⟨[], [255, 255, 253, 0, 1, 5, 0, 85, 0, 32, 144, 161]⟩ [1] 0 1
      = (.ok [[32]], ⟨[] ++ [v2Frame 254 130 (u16le 0 ++ u16le 1 ++ [1])], []⟩) := by
  constructor
  · decide
  · have h := (c5_sync_read ⟨[], [255, 255, 253, 0, 1, 5, 0, 85, 0, 32, 144, 161]⟩ [1] 0 1
      [[255, 255, 253, 0, 1, 5, 0, 85, 0, 32, 144, 161]] [] (by decide) (by decide)
      (by decide) (by decide) (by decide)).1
    simpa using h

/-- C6 counterexample: feed the utils V1 slave the exact ping frame
`FF FF 01 02 01 FB` (declared length 2, so the full frame is 4 + 2 = 6
bytes): it delivers the instruction but drains only `len + 3 = 5` bytes,
leaving the checksum byte `FB` at the head of the buffer; and feed the lib
V1 slave the same frame followed by one extra byte `0x42`: it clears the
whole deque, discarding the extra byte, instead of removing exactly the
6-byte frame. -/
theorem c6_counterexample :
    recvU 1 [255, 255, 1, 2, 1, 251] [] [] = .ok ⟨1, 1, []⟩ [251] [] []
    ∧ recvU 1 [255, 255, 1, 2, 1, 251] [] [] ≠ .ok ⟨1, 1, []⟩ [] [] []
    ∧ recvL 1 [255, 255, 1, 2, 1, 251, 66] [] = .ok ⟨1, 1, []⟩ [] []
    ∧ recvL 1 [255, 255, 1, 2, 1, 251, 66] [] ≠ .ok ⟨1, 1, []⟩ [66] [] := by
  decide

/-- C6 amended: on a fully buffered valid frame
`FF FF id len opcode tail…` (`len = |opcode :: tail| = lm + 1`), the utils
V1 slave delivers the instruction and drains exactly `len + 3` bytes — one
fewer than the `4 + len` frame bytes, leaving the frame's checksum byte
`(op :: tailb).drop lm` at the head, followed by any already-buffered
following bytes; the lib V1 slave delivers the same instruction but clears
the deque entirely, discarding the following bytes. -/
theorem c6_amended (idb lm op : Nat) (tailb rest rx : List Nat) (env : List Ev1)
    (envL : List Ev2) (fuel : Nat)
    (hid : idb ≠ 255)
    (ht : tailb.length = lm)
    (hop : opcodeKnown op = true)
    (hcs : bnot (sum8 (idb :: (lm + 1) :: op :: tailb)) = 0)
    (hstat : op ≠ 0) :
    recvU (fuel + 1) (255 :: 255 :: idb :: (lm + 1) :: op :: (tailb ++ rest)) rx env
      = .ok ⟨idb, op, tailb.take (lm - 1)⟩ ((op :: tailb).drop lm ++ rest) rx env
    ∧ recvL (fuel + 1) (255 :: 255 :: idb :: (lm + 1) :: op :: (tailb ++ rest)) envL
      = .ok ⟨idb, op, tailb.take (lm - 1)⟩ [] envL := by
  have hcsarg : ((255 :: 255 :: idb :: (lm + 1) :: op :: (tailb ++ rest)).drop 2).take (lm + 1 + 2) = idb :: (lm + 1) :: op :: tailb := by
    rw [show ((255 :: 255 :: idb :: (lm + 1) :: op :: (tailb ++ rest)).drop 2).take (lm + 1 + 2)
        = idb :: (lm + 1) :: op :: ((tailb ++ rest).take lm) from rfl]
    rw [List.take_left' ht]
  have hdata : ((255 :: 255 :: idb :: (lm + 1) :: op :: (tailb ++ rest)).drop 5).take (lm + 1 - 2) = tailb.take (lm - 1) := by
    rw [show ((255 :: 255 :: idb :: (lm + 1) :: op :: (tailb ++ rest)).drop 5).take (lm + 1 - 2) = (tailb ++ rest).take (lm - 1) from rfl]
    exact List.take_append_of_le_length (by omega)
  constructor
  · have e1 : ensure1 (255 :: 255 :: idb :: (lm + 1) :: op :: (tailb ++ rest)) rx env 4 = .ok (255 :: 255 :: idb :: (lm + 1) :: op :: (tailb ++ rest)) rx env := by
      unfold ensure1
      rw [if_pos (by simp only [List.length_cons]; omega)]
    simp only [recvU, e1]
    simp only [show (255 :: 255 :: idb :: (lm + 1) :: op :: (tailb ++ rest)).getD 0 0 = 255 from rfl, show (255 :: 255 :: idb :: (lm + 1) :: op :: (tailb ++ rest)).getD 1 0 = 255 from rfl,
      show (255 :: 255 :: idb :: (lm + 1) :: op :: (tailb ++ rest)).getD 2 0 = idb from rfl, show (255 :: 255 :: idb :: (lm + 1) :: op :: (tailb ++ rest)).getD 3 0 = lm + 1 from rfl]
    rw [if_neg (by simp), if_neg (by simp), if_neg hid, if_neg (by omega)]
    have e2 : ensure1 (255 :: 255 :: idb :: (lm + 1) :: op :: (tailb ++ rest)) rx env (4 + (lm + 1)) = .ok (255 :: 255 :: idb :: (lm + 1) :: op :: (tailb ++ rest)) rx env := by
      unfold ensure1
      rw [if_pos (by simp only [List.length_cons, List.length_append]; omega)]
    simp only [e2]
    simp only [show (255 :: 255 :: idb :: (lm + 1) :: op :: (tailb ++ rest)).getD 4 0 = op from rfl]
    rw [if_neg (fun h => h hop)]
    rw [hcsarg, if_neg (fun h => h hcs)]
    rw [hdata]
    rw [show (255 :: 255 :: idb :: (lm + 1) :: op :: (tailb ++ rest)).drop (lm + 1 + 3) = (op :: (tailb ++ rest)).drop lm from rfl]
    rw [show op :: (tailb ++ rest) = (op :: tailb) ++ rest from rfl]
    rw [List.drop_append_of_le_length (by simp only [List.length_cons, ht]; omega)]
  · have e1 : waitBuf envL (255 :: 255 :: idb :: (lm + 1) :: op :: (tailb ++ rest)) 4 = some ((255 :: 255 :: idb :: (lm + 1) :: op :: (tailb ++ rest)), envL) := by
      unfold waitBuf
      rw [if_pos (by simp only [List.length_cons]; omega)]
    simp only [recvL, e1]
    simp only [show (255 :: 255 :: idb :: (lm + 1) :: op :: (tailb ++ rest)).getD 0 0 = 255 from rfl, show (255 :: 255 :: idb :: (lm + 1) :: op :: (tailb ++ rest)).getD 1 0 = 255 from rfl,
      show (255 :: 255 :: idb :: (lm + 1) :: op :: (tailb ++ rest)).getD 2 0 = idb from rfl, show (255 :: 255 :: idb :: (lm + 1) :: op :: (tailb ++ rest)).getD 3 0 = lm + 1 from rfl]
    rw [if_neg (by simp), if_neg (by simp), if_neg hid, if_neg (by omega)]
    have e2 : ensureL (255 :: 255 :: idb :: (lm + 1) :: op :: (tailb ++ rest)) envL (4 + (lm + 1)) = .ok (255 :: 255 :: idb :: (lm + 1) :: op :: (tailb ++ rest)) envL := by
      unfold ensureL
      rw [if_pos (by simp only [List.length_cons, List.length_append]; omega)]
    simp only [e2]
    simp only [show (255 :: 255 :: idb :: (lm + 1) :: op :: (tailb ++ rest)).getD 4 0 = op from rfl]
    rw [if_neg (fun h => h hop)]
    rw [hcsarg, if_neg (fun h => h hcs)]
    rw [if_neg hstat]
    rw [hdata]

/-- Witness for C6 (amended): the ping frame `FF FF 01 02 01 FB` followed
by a buffered byte `0x42`. -/
theorem c6_amended_witness :
    (1 : Nat) ≠ 255 ∧ ([251] : List Nat).length = 1 ∧ opcodeKnown 1 = true
    ∧ bnot (sum8 [1, 2, 1, 251]) = 0 ∧ (1 : Nat) ≠ 0
    ∧ recvU 1 [255, 255, 1, 2, 1, 251, 66] [] []
      = .ok ⟨1, 1, []⟩ ([251] ++ [66]) [] []
    ∧ recvL 1 [255, 255, 1, 2, 1, 251, 66] []
      = .ok ⟨1, 1, []⟩ [] [] := by
  refine ⟨by decide, by decide, by decide, by decide, by decide, ?_, ?_⟩
  · have h := (c6_amended 1 1 1 [251] [66] [] [] [] 0 (by decide) (by decide)
      (by decide) (by decide) (by decide)).1
    simpa using h
  · have h := (c6_amended 1 1 1 [251] [66] [] [] [] 0 (by decide) (by decide)
      (by decide) (by decide) (by decide)).2
    simpa using h

theorem ensureLoop1_no_ioErr (n : Nat) :
    ∀ (env : List Ev1) (deq rx : List Nat), Ev1.ioErr ∉ env →
      (ensureLoop1 n deq rx env ≠ .err
        ∧ ∀ d r e, ensureLoop1 n deq rx env = .ok d r e → Ev1.ioErr ∉ e) := by
  intro env
  induction env with
  | nil =>
    intro deq rx _
    constructor
    · simp [ensureLoop1]
    · intro d r e he
      simp [ensureLoop1] at he
  | cons ev env ih =>
    intro deq rx h
    have hne : ev ≠ .ioErr := fun hh => h (hh ▸ List.mem_cons_self _ _)
    have henv : Ev1.ioErr ∉ env := fun hh => h (List.mem_cons_of_mem _ hh)
    cases ev with
    | timeout =>
      have hr := ih [] rx henv
      constructor
      · simpa [ensureLoop1] using hr.1
      · intro d r e he
        simp only [ensureLoop1] at he
        exact hr.2 d r e he
    | ioErr => exact absurd rfl hne
    | chunk =>
      constructor
      · simp only [ensureLoop1]
        split_ifs
        · simp
        · simp
      · intro d r e he
        simp only [ensureLoop1] at he
        split_ifs at he
        · simp only [ERes1.ok.injEq] at he
          obtain ⟨_, _, h3⟩ := he
          exact h3 ▸ henv

theorem ensure1_no_ioErr (deq rx : List Nat) (env : List Ev1) (n : Nat)
    (h : Ev1.ioErr ∉ env) :
    ensure1 deq rx env n ≠ .err
      ∧ ∀ d r e, ensure1 deq rx env n = .ok d r e → Ev1.ioErr ∉ e := by
  unfold ensure1
  split_ifs
  · constructor
    · simp
    · intro d r e he
      simp only [ERes1.ok.injEq] at he
      obtain ⟨_, _, h3⟩ := he
      exact h3 ▸ h
  · exact ensureLoop1_no_ioErr n env deq rx h

/-- C7 counterexample: the lib V1 slave hit by a read failure — the code
collapses a hard I/O error and a timeout into the same `_` match arm —
does not surface an error: with the single read outcome `fail` it keeps
scanning (blocked awaiting more input) instead of returning an error. -/
theorem c7_counterexample :
    recvL 2 [] [Ev2.fail] = .blocked
    ∧ recvLIsErr (recvL 2 [] [Ev2.fail]) = false := by
  decide

/-- C7 amended: the utils V1 slave never surfaces a framing-level failure
(with no I/O error in the environment, `recv_instruction` never returns an
error — header, id, length, opcode and checksum failures only pop or clear
buffered bytes and rescan) and it does surface a hard I/O error raised by
a read; the lib V1 slave, however, never returns an error at all — its
`ensure_buffer` converts every read failure (timeout or I/O error alike)
to `TimedOut`, and `recv_instruction` swallows those and keeps scanning. -/
theorem c7_amended :
    (∀ (fuel : Nat) (deq rx : List Nat) (env : List Ev1),
      Ev1.ioErr ∉ env → recvU fuel deq rx env ≠ .err)
    ∧ (∀ (deq rx : List Nat) (env : List Ev1) (fuel : Nat),
      deq.length < 4 → recvU (fuel + 1) deq rx (.ioErr :: env) = .err)
    ∧ (∀ (fuel : Nat) (deq : List Nat) (env : List Ev2) (e : ProtocolError),
      recvL fuel deq env ≠ .err e) := by
  refine ⟨?_, ?_, ?_⟩
  · intro fuel
    induction fuel with
    | zero =>
      intro deq rx env _
      simp [recvU]
    | succ m ih =>
      intro deq rx env h
      simp only [recvU]
      cases he : ensure1 deq rx env 4 with
      | err => exact absurd he (ensure1_no_ioErr deq rx env 4 h).1
      | blocked => simp
      | ok d r e =>
        have henv : Ev1.ioErr ∉ e := (ensure1_no_ioErr deq rx env 4 h).2 d r e he
        dsimp only
        split_ifs with h1 h2 h3 h4
        · exact ih _ _ _ henv
        · exact ih _ _ _ henv
        · exact ih _ _ _ henv
        · exact ih _ _ _ henv
        · cases he2 : ensure1 d r e (4 + d.getD 3 0) with
          | err => exact absurd he2 (ensure1_no_ioErr d r e _ henv).1
          | blocked => simp
          | ok d2 r2 e2 =>
            have henv2 : Ev1.ioErr ∉ e2 := (ensure1_no_ioErr d r e _ henv).2 d2 r2 e2 he2
            dsimp only
            split_ifs with h5 h6
            all_goals first
              | exact ih _ _ _ henv2
              | simp
  · intro deq rx env fuel h
    simp only [recvU]
    have he : ensure1 deq rx (.ioErr :: env) 4 = .err := by
      unfold ensure1
      rw [if_neg (by omega)]
      rfl
    simp only [he]
  · intro fuel
    induction fuel with
    | zero =>
      intro deq env e
      simp [recvL]
    | succ m ih =>
      intro deq env e
      simp only [recvL]
      cases hw : waitBuf env deq 4 with
      | none => simp
      | some x =>
        obtain ⟨d, en⟩ := x
        dsimp only
        split_ifs with h1 h2 h3 h4
        · exact ih _ _ _
        · exact ih _ _ _
        · exact ih _ _ _
        · exact ih _ _ _
        · cases he2 : ensureL d en (4 + d.getD 3 0) with
          | blocked => simp
          | err e2 => exact ih _ _ _
          | ok d2 e2 =>
            dsimp only
            split_ifs with h5 h6 h7
            all_goals first
              | exact ih _ _ _
              | simp

/-- Witness for C7 (amended): an empty environment (no error is surfaced
by the utils slave), a single I/O-error read outcome (the utils slave
surfaces it), and the lib slave on an empty environment. -/
theorem c7_amended_witness :
    (Ev1.ioErr ∉ ([] : List Ev1) ∧ recvU 1 [] [] [] ≠ .err)
    ∧ (([] : List Nat).length < 4 ∧ recvU 1 [] [] [.ioErr] = .err)
    ∧ recvL 1 [] [] ≠ .err .ioError := by
  refine ⟨⟨by decide, c7_amended.1 1 [] [] [] (by decide)⟩,
    ⟨by decide, c7_amended.2.1 [] [] [] 0 (by decide)⟩,
    c7_amended.2.2 1 [] [] .ioError⟩
